import Mathlib

/-!
Verification development for the QuickJS Swift helper layer
(quickjs-swift-helpers.c).  The helper functions (QJS_Undefined,
QJS_NewBool, QJS_ThrowTypeError, QJS_ThrowInternalError,
QJS_CompileModule, QJS_EvalAutoDetect, QJS_CompileToBytecode,
QJS_EvalBytecode) are translated directly from the C source.  The engine
primitives they delegate to (JS_Eval, JS_ReadObject, JS_WriteObject,
JS_ResolveModule, JS_EvalFunction, JS_DetectModule, the JS_UNDEFINED
family of literals, JS_NewBool and the variadic error throwers) are not
part of the given sources; each is modelled from the design document and
carries a doc comment saying so.  C (pointer, length) pairs are modelled
as Lean lists or abstract source values that carry their own extent;
reference-count bookkeeping (JS_FreeValue) is a state-preserving no-op in
the model.  To make the temporal claims statable, the modelled Context
records an event trace of module resolutions and unit executions.
-/

/-- Value tags, mirroring the engine tag enum (JS_TAG_MODULE,
JS_TAG_FUNCTION_BYTECODE, JS_TAG_EXCEPT, ...). -/
inductive JSTag where
  | undefinedT
  | nullT
  | boolT
  | intT
  | stringT
  | moduleT
  | funcBytecodeT
  | exceptionT
  deriving DecidableEq

/-- Modelled from the spec: primitive script values that can appear as
the completion value of a statement and travel through the bytecode
codec (section 3, Value). -/
inductive Lit where
  | undef
  | nullL
  | boolL (b : Bool)
  | intL (n : Int)
  | strL (s : String)
  deriving DecidableEq

/-- Modelled from the spec: the module record a JSModuleDef pointer
designates — the unresolved dependency list plus whether the serialized
form still embeds source text (section 3, CompiledUnit). -/
structure ModuleDef where
  deps : List String
  hasSource : Bool
  deriving DecidableEq

/-- Modelled from the spec: the tagged JSValue union (section 3, Value).
A module or function-bytecode value carries the compiled unit the
engine pointer designates. -/
inductive JSValue where
  | undefined
  | nullV
  | boolV (b : Bool)
  | intV (n : Int)
  | strV (s : String)
  | moduleV (m : ModuleDef)
  | funcBytecodeV (hasSource : Bool) (result : Lit)
  | exceptionV
  deriving DecidableEq

def Lit.toJSValue : Lit → JSValue
  | .undef => JSValue.undefined
  | .nullL => JSValue.nullV
  | .boolL b => JSValue.boolV b
  | .intL n => JSValue.intV n
  | .strL s => JSValue.strV s

/-- Modelled from the spec: the tag-extraction macro of the engine. -/
def JS_VALUE_GET_TAG : JSValue → JSTag
  | .undefined => JSTag.undefinedT
  | .nullV => JSTag.nullT
  | .boolV _ => JSTag.boolT
  | .intV _ => JSTag.intT
  | .strV _ => JSTag.stringT
  | .moduleV _ => JSTag.moduleT
  | .funcBytecodeV _ _ => JSTag.funcBytecodeT
  | .exceptionV => JSTag.exceptionT

/-- Modelled from the spec: the engine literal JS_UNDEFINED. -/
def JS_UNDEFINED : JSValue := JSValue.undefined

/-- Modelled from the spec: the engine literal JS_NULL. -/
def JS_NULL : JSValue := JSValue.nullV

/-- Modelled from the spec: the engine literal JS_TRUE. -/
def JS_TRUE : JSValue := JSValue.boolV true

/-- Modelled from the spec: the engine literal JS_FALSE. -/
def JS_FALSE : JSValue := JSValue.boolV false

/-- Modelled from the spec: the engine literal JS_EXCEPTION, the
exception sentinel (section 3). -/
def JS_EXCEPTION : JSValue := JSValue.exceptionV

/-- Modelled from the spec: the sentinel test isException (section 4.3),
a tag comparison against JS_TAG_EXCEPT. -/
def JS_IsException (v : JSValue) : Bool :=
  JS_VALUE_GET_TAG v == JSTag.exceptionT

/-- Error kinds named by the spec (sections 4.3 and 6): TypeError and
InternalError from the wrapper surface, plus the parse-error kind the
engine raises on malformed input. -/
inductive ErrorKind where
  | typeError
  | internalError
  | parseError
  deriving DecidableEq

/-- An engine-native error object: a kind plus a message string. -/
structure JSError where
  kind : ErrorKind
  message : String
  deriving DecidableEq

/-- Observable engine events, used to state the temporal claims:
a module resolution and a compiled-unit execution. -/
inductive EngineEvent where
  | resolveEv
  | executeEv
  deriving DecidableEq

/-- Modelled from the spec: a Context owns the pending-exception slot
(section 3).  The trace field records resolution/execution events so
that ordering claims are statable. -/
structure Context where
  pendingException : Option JSError
  trace : List EngineEvent
  deriving DecidableEq

/-- Modelled from the spec: a freshly created Context — empty
pending-exception slot, nothing executed yet. -/
def JS_NewContext : Context := ⟨none, []⟩

/-- Store an error in the pending-exception slot (last-write-wins,
section 4.3). -/
def setPending (ctx : Context) (e : JSError) : Context :=
  ⟨some e, ctx.trace⟩

/-- Append an observable engine event to the trace. -/
def pushEvent (ctx : Context) (ev : EngineEvent) : Context :=
  ⟨ctx.pendingException, ctx.trace ++ [ev]⟩

/-- Modelled from the spec: JS_FreeValue only adjusts reference counts,
a no-op on the abstract state. -/
def JS_FreeValue (ctx : Context) (_v : JSValue) : Context := ctx

/-- Modelled from the spec: a top-level statement of a source text — an
importing declaration naming a dependency, an export declaration, or a
plain statement whose completion value is a primitive. -/
inductive Stmt where
  | importDecl (dep : String)
  | exportDecl
  | plain (v : Lit)
  deriving DecidableEq

/-- Modelled from the spec: source text, abstracted to what the engine
front end distinguishes — syntactically malformed input, or a program
given by its list of top-level statements (full grammar is a spec
non-goal). -/
inductive SourceText where
  | malformed
  | program (stmts : List Stmt)
  deriving DecidableEq

/-- Whether a top-level statement is an import or export declaration. -/
def isModuleStmt : Stmt → Bool
  | .importDecl _ => true
  | .exportDecl => true
  | .plain _ => false

/-- The dependency names imported by a program. -/
def importsOf (stmts : List Stmt) : List String :=
  stmts.filterMap fun s =>
    match s with
    | .importDecl d => some d
    | _ => none

/-- The completion value of a script: the value of the last plain
statement, undefined when there is none. -/
def scriptResult (stmts : List Stmt) : Lit :=
  stmts.foldl (fun acc s => match s with | .plain v => v | _ => acc) Lit.undef

/-- Modelled from the spec: JS_DetectModule, the syntactic pre-scan for
top-level import/export declarations (section 4.4). -/
def JS_DetectModule (source : SourceText) : Bool :=
  match source with
  | .malformed => false
  | .program stmts => stmts.any isModuleStmt

/-- Modelled from the spec: module resolution walks the dependency list
and fails if any dependency fails to load (section 4.4).  The given
sources install no module loader, so every dependency load fails: a
module resolves exactly when it has no imports. -/
def resolveOk (deps : List String) : Bool := deps.isEmpty

/-- The evaluation-type flag of the engine. -/
inductive EvalType where
  | typeGlobal
  | typeModule
  deriving DecidableEq

/-- The engine constant JS_EVAL_TYPE_GLOBAL. -/
def JS_EVAL_TYPE_GLOBAL : EvalType := EvalType.typeGlobal

/-- The engine constant JS_EVAL_TYPE_MODULE. -/
def JS_EVAL_TYPE_MODULE : EvalType := EvalType.typeModule

/-- Modelled from the spec: JS_Eval (sections 4.4 and 7).  Malformed
input sets the pending exception and yields the sentinel.  In module
mode, compile-only yields the module record with embedded source; a full
evaluation resolves the dependency graph and executes only on success.
In script mode a top-level import/export is a parse error; otherwise
compile-only yields the function-bytecode unit and a full evaluation
yields the completion value. -/
def JS_Eval (ctx : Context) (source : SourceText) (_filename : String)
    (eval_type : EvalType) (compile_only : Bool) : JSValue × Context :=
  match source with
  | .malformed =>
    (JSValue.exceptionV, setPending ctx ⟨ErrorKind.parseError, "SyntaxError"⟩)
  | .program stmts =>
    match eval_type with
    | .typeModule =>
      if compile_only then
        (JSValue.moduleV ⟨importsOf stmts, true⟩, ctx)
      else
        if resolveOk (importsOf stmts) then
          (JSValue.undefined, pushEvent (pushEvent ctx EngineEvent.resolveEv) EngineEvent.executeEv)
        else
          (JSValue.exceptionV,
            setPending (pushEvent ctx EngineEvent.resolveEv)
              ⟨ErrorKind.internalError, "could not resolve module"⟩)
    | .typeGlobal =>
      if stmts.any isModuleStmt then
        (JSValue.exceptionV, setPending ctx ⟨ErrorKind.parseError, "SyntaxError"⟩)
      else if compile_only then
        (JSValue.funcBytecodeV true (scriptResult stmts), ctx)
      else
        ((scriptResult stmts).toJSValue, pushEvent ctx EngineEvent.executeEv)

/-- Modelled from the spec: JS_EvalFunction executes an already compiled
unit (section 4.5); a module unit completes with undefined, a
function-bytecode unit with its completion value. -/
def JS_EvalFunction (ctx : Context) (fun_obj : JSValue) : JSValue × Context :=
  match fun_obj with
  | .moduleV _ => (JSValue.undefined, pushEvent ctx EngineEvent.executeEv)
  | .funcBytecodeV _ r => (r.toJSValue, pushEvent ctx EngineEvent.executeEv)
  | _ => (JSValue.exceptionV, setPending ctx ⟨ErrorKind.typeError, "not a function"⟩)

/-- Modelled from the spec: JS_ResolveModule (section 4.4), returning a
nonnegative code on success and a negative code with the pending
exception set on failure. -/
def JS_ResolveModule (ctx : Context) (obj : JSValue) : Int × Context :=
  match obj with
  | .moduleV m =>
    if resolveOk m.deps then (0, pushEvent ctx EngineEvent.resolveEv)
    else
      (-1, setPending (pushEvent ctx EngineEvent.resolveEv)
        ⟨ErrorKind.internalError, "could not resolve module"⟩)
  | _ => (-1, setPending ctx ⟨ErrorKind.typeError, "not a module"⟩)

/-- Minimal printf interpretation over string arguments, as the variadic
engine formatters apply it: a percent-s directive consumes the next
argument verbatim, a doubled percent is a literal percent, every other
character is literal. -/
def sprintfS : List Char → List String → List Char
  | [], _ => []
  | '%' :: 's' :: rest, arg :: args => arg.data ++ sprintfS rest args
  | '%' :: '%' :: rest, args => '%' :: sprintfS rest args
  | c :: rest, args => c :: sprintfS rest args

/-- Modelled from the spec: the variadic JS_ThrowTypeError — formats its
arguments, builds a TypeError with the formatted message, stores it as
the pending exception and returns the sentinel (section 4.3). -/
def JS_ThrowTypeError (ctx : Context) (fmt : String) (args : List String) :
    JSValue × Context :=
  (JSValue.exceptionV,
    setPending ctx ⟨ErrorKind.typeError, String.mk (sprintfS fmt.data args)⟩)

/-- Modelled from the spec: the variadic JS_ThrowInternalError,
analogous to JS_ThrowTypeError with the InternalError kind. -/
def JS_ThrowInternalError (ctx : Context) (fmt : String) (args : List String) :
    JSValue × Context :=
  (JSValue.exceptionV,
    setPending ctx ⟨ErrorKind.internalError, String.mk (sprintfS fmt.data args)⟩)

/-- Modelled from the spec: JS_NewBool builds a boolean value from
native truthiness (section 4.1) — any nonzero int is true. -/
def JS_NewBool (_ctx : Context) (val : Int) : JSValue :=
  JSValue.boolV (val != 0)

/-- Modelled from the spec: the format/version tag beginning every
serialized buffer (section 6); the concrete number is arbitrary. -/
def bcVersion : Nat := 67

/-- Serialize a string: character count, then the character codes. -/
def encodeStr (s : String) : List Nat :=
  s.length :: s.data.map Char.toNat

/-- Read a fixed number of character codes from a buffer. -/
def decodeChars : Nat → List Nat → Option (List Char × List Nat)
  | 0, rest => some ([], rest)
  | _ + 1, [] => none
  | n + 1, b :: rest =>
    match decodeChars n rest with
    | some (cs, rest1) => some (Char.ofNat b :: cs, rest1)
    | none => none

/-- Deserialize a string. -/
def decodeStr (bytes : List Nat) : Option (String × List Nat) :=
  match bytes with
  | [] => none
  | n :: rest =>
    match decodeChars n rest with
    | some (cs, rest1) => some (String.mk cs, rest1)
    | none => none

/-- Serialize a list of strings back to back. -/
def encodeStrs : List String → List Nat
  | [] => []
  | s :: rest => encodeStr s ++ encodeStrs rest

/-- Deserialize a fixed number of strings. -/
def decodeStrs : Nat → List Nat → Option (List String × List Nat)
  | 0, rest => some ([], rest)
  | n + 1, bytes =>
    match decodeStr bytes with
    | some (s, rest1) =>
      match decodeStrs n rest1 with
      | some (ss, rest2) => some (s :: ss, rest2)
      | none => none
    | none => none

/-- A boolean as a byte. -/
def encodeBool (b : Bool) : Nat := cond b 1 0

/-- Serialize a primitive value. -/
def encodeLit : Lit → List Nat
  | .undef => [0]
  | .nullL => [1]
  | .boolL b => [2, encodeBool b]
  | .intL n => [3, if n < 0 then 1 else 0, n.natAbs]
  | .strL s => 4 :: encodeStr s

/-- Deserialize a primitive value. -/
def decodeLit : List Nat → Option (Lit × List Nat)
  | 0 :: rest => some (Lit.undef, rest)
  | 1 :: rest => some (Lit.nullL, rest)
  | 2 :: b :: rest => some (Lit.boolL (b == 1), rest)
  | 3 :: sg :: mg :: rest =>
    some (Lit.intL (if sg == 1 then -(mg : Int) else (mg : Int)), rest)
  | 4 :: rest =>
    match decodeStr rest with
    | some (s, rest1) => some (Lit.strL s, rest1)
    | none => none
  | _ => none

/-- Modelled from the spec: dropping embedded source text from a unit
under JS_WRITE_OBJ_STRIP_SOURCE (section 4.5). -/
def stripSourceInfo : JSValue → JSValue
  | .moduleV m => JSValue.moduleV ⟨m.deps, false⟩
  | .funcBytecodeV _ r => JSValue.funcBytecodeV false r
  | v => v

/-- Payload serialization of a compiled unit: a unit-kind byte, the
source-present byte, then the unit body. -/
def encodeObjPayload : JSValue → Option (List Nat)
  | .moduleV m => some (7 :: encodeBool m.hasSource :: m.deps.length :: encodeStrs m.deps)
  | .funcBytecodeV hs r => some (8 :: encodeBool hs :: encodeLit r)
  | _ => none

/-- Modelled from the spec: JS_WriteObject under JS_WRITE_OBJ_BYTECODE —
serializes a compiled unit into a buffer beginning with the
format/version tag, applying source stripping when asked
(section 4.5). -/
def JS_WriteObject (_ctx : Context) (obj : JSValue)
    (bytecodeFlag stripFlag : Bool) : Option (List Nat) :=
  if bytecodeFlag then
    match encodeObjPayload (if stripFlag then stripSourceInfo obj else obj) with
    | some payload => some (bcVersion :: payload)
    | none => none
  else none

/-- Payload deserialization of a compiled unit; the payload must be
consumed exactly. -/
def decodeObjPayload : List Nat → Option JSValue
  | 7 :: hs :: n :: rest =>
    match decodeStrs n rest with
    | some (deps, []) => some (JSValue.moduleV ⟨deps, hs == 1⟩)
    | _ => none
  | 8 :: hs :: rest =>
    match decodeLit rest with
    | some (r, []) => some (JSValue.funcBytecodeV (hs == 1) r)
    | _ => none
  | _ => none

/-- Buffer deserialization: the leading format/version tag is validated
before the payload is trusted (sections 4.5 and 6). -/
def decodeBuffer (buf : List Nat) : Option JSValue :=
  match buf with
  | [] => none
  | v :: rest => if v == bcVersion then decodeObjPayload rest else none

/-- Modelled from the spec: JS_ReadObject under JS_READ_OBJ_BYTECODE —
deserializes a buffer into a compiled unit, failing with the sentinel
and a pending exception on a malformed or version-incompatible buffer
(section 4.5). -/
def JS_ReadObject (ctx : Context) (buf : List Nat) (_bytecodeFlag : Bool) :
    JSValue × Context :=
  match decodeBuffer buf with
  | some v => (v, ctx)
  | none =>
    (JSValue.exceptionV,
      setPending ctx ⟨ErrorKind.parseError, "invalid or incompatible bytecode"⟩)

/-- Modelled from the spec: the pointer-extraction macro, read at module
type as QJS_CompileModule does; only a module value carries a module
record. -/
def JS_VALUE_GET_PTR : JSValue → Option ModuleDef
  | .moduleV m => some m
  | _ => none

/-- Translated from quickjs-swift-helpers.c line 4. -/
def QJS_Undefined (_u : Unit) : JSValue := JS_UNDEFINED

/-- Translated from quickjs-swift-helpers.c line 5. -/
def QJS_Null (_u : Unit) : JSValue := JS_NULL

/-- Translated from quickjs-swift-helpers.c line 6. -/
def QJS_True (_u : Unit) : JSValue := JS_TRUE

/-- Translated from quickjs-swift-helpers.c line 7. -/
def QJS_False (_u : Unit) : JSValue := JS_FALSE

/-- Translated from quickjs-swift-helpers.c line 8. -/
def QJS_Exception (_u : Unit) : JSValue := JS_EXCEPTION

/-- Translated from quickjs-swift-helpers.c lines 10-12. -/
def QJS_NewBool (ctx : Context) (val : Int) : JSValue :=
  JS_NewBool ctx val

/-- Translated from quickjs-swift-helpers.c lines 16-18. -/
def QJS_ThrowTypeError (ctx : Context) (msg : String) : JSValue × Context :=
  JS_ThrowTypeError ctx "%s" [msg]

/-- Translated from quickjs-swift-helpers.c lines 20-22. -/
def QJS_ThrowInternalError (ctx : Context) (msg : String) : JSValue × Context :=
  JS_ThrowInternalError ctx "%s" [msg]

/-- Translated from quickjs-swift-helpers.c lines 26-35. -/
def QJS_CompileModule (ctx : Context) (source : SourceText)
    (module_name : String) : Option ModuleDef × Context :=
  match JS_Eval ctx source module_name JS_EVAL_TYPE_MODULE true with
  | (func_val, ctx1) =>
    if JS_IsException func_val then (none, ctx1)
    else (JS_VALUE_GET_PTR func_val, JS_FreeValue ctx1 func_val)

/-- Translated from quickjs-swift-helpers.c lines 39-45. -/
def QJS_EvalAutoDetect (ctx : Context) (source : SourceText)
    (filename : String) : JSValue × Context :=
  let eval_type :=
    if JS_DetectModule source then JS_EVAL_TYPE_MODULE else JS_EVAL_TYPE_GLOBAL
  JS_Eval ctx source filename eval_type false

/-- Translated from quickjs-swift-helpers.c lines 48-64. -/
def QJS_CompileToBytecode (ctx : Context) (source : SourceText)
    (filename : String) : Option (List Nat) × Nat × Context :=
  let eval_type :=
    if JS_DetectModule source then JS_EVAL_TYPE_MODULE else JS_EVAL_TYPE_GLOBAL
  match JS_Eval ctx source filename eval_type true with
  | (obj, ctx1) =>
    if JS_IsException obj then (none, 0, ctx1)
    else
      match JS_WriteObject ctx1 obj true true with
      | some buf => (some buf, buf.length, JS_FreeValue ctx1 obj)
      | none => (none, 0, JS_FreeValue ctx1 obj)

/-- Translated from quickjs-swift-helpers.c lines 67-79. -/
def QJS_EvalBytecode (ctx : Context) (buf : List Nat) : JSValue × Context :=
  match JS_ReadObject ctx buf true with
  | (obj, ctx1) =>
    if JS_IsException obj then (JS_EXCEPTION, ctx1)
    else if JS_VALUE_GET_TAG obj == JSTag.moduleT then
      match JS_ResolveModule ctx1 obj with
      | (r, ctx2) =>
        if r < 0 then (JS_EXCEPTION, JS_FreeValue ctx2 obj)
        else JS_EvalFunction ctx2 obj
    else JS_EvalFunction ctx1 obj

/-- The detection rule stated in the words of the spec: the source
contains a top-level import or export statement. -/
def containsModuleDecl : SourceText → Prop
  | .malformed => False
  | .program stmts =>
    ∃ st ∈ stmts, (∃ d, st = Stmt.importDecl d) ∨ st = Stmt.exportDecl

lemma isModuleStmt_iff (st : Stmt) :
    isModuleStmt st = true ↔ ((∃ d, st = Stmt.importDecl d) ∨ st = Stmt.exportDecl) := by
  cases st <;> simp [isModuleStmt]

lemma decodeChars_encode (cs : List Char) (rest : List Nat) :
    decodeChars cs.length (cs.map Char.toNat ++ rest) = some (cs, rest) := by
  induction cs with
  | nil => simp [decodeChars]
  | cons c cs ih => simp [decodeChars, ih, Char.ofNat_toNat]

lemma decodeStr_encode (s : String) (rest : List Nat) :
    decodeStr (encodeStr s ++ rest) = some (s, rest) := by
  obtain ⟨cs⟩ := s
  show decodeStr (cs.length :: (cs.map Char.toNat ++ rest)) = some (String.mk cs, rest)
  simp [decodeStr, decodeChars_encode]

lemma decodeStrs_encode (ss : List String) (rest : List Nat) :
    decodeStrs ss.length (encodeStrs ss ++ rest) = some (ss, rest) := by
  induction ss generalizing rest with
  | nil => simp [decodeStrs, encodeStrs]
  | cons s ss ih =>
    simp [decodeStrs, encodeStrs, List.append_assoc, decodeStr_encode, ih]

lemma decodeLit_encode (v : Lit) (rest : List Nat) :
    decodeLit (encodeLit v ++ rest) = some (v, rest) := by
  cases v with
  | undef => simp [encodeLit, decodeLit]
  | nullL => simp [encodeLit, decodeLit]
  | boolL b => cases b <;> simp [encodeLit, decodeLit, encodeBool]
  | intL n =>
    by_cases h : n < 0 <;>
      simp [encodeLit, decodeLit, h, -Int.natCast_natAbs] <;> omega
  | strL s => simp [encodeLit, decodeLit, List.append_assoc, decodeStr_encode]

lemma decodeBuffer_moduleBuf (deps : List String) (hs : Bool) :
    decodeBuffer (bcVersion :: 7 :: encodeBool hs :: deps.length :: encodeStrs deps)
      = some (JSValue.moduleV ⟨deps, hs⟩) := by
  have h1 := decodeStrs_encode deps []
  rw [List.append_nil] at h1
  cases hs <;> simp [decodeBuffer, decodeObjPayload, encodeBool, h1]

lemma decodeBuffer_funcBuf (hs : Bool) (r : Lit) :
    decodeBuffer (bcVersion :: 8 :: encodeBool hs :: encodeLit r)
      = some (JSValue.funcBytecodeV hs r) := by
  have h1 := decodeLit_encode r []
  rw [List.append_nil] at h1
  cases hs <;> simp [decodeBuffer, decodeObjPayload, encodeBool, h1]

lemma compileToBytecode_program (ctx : Context) (stmts : List Stmt) (fn : String) :
    QJS_CompileToBytecode ctx (SourceText.program stmts) fn =
      (if stmts.any isModuleStmt then
        (some (bcVersion :: 7 :: 0 :: (importsOf stmts).length :: encodeStrs (importsOf stmts)),
         (bcVersion :: 7 :: 0 :: (importsOf stmts).length :: encodeStrs (importsOf stmts)).length,
         ctx)
      else
        (some (bcVersion :: 8 :: 0 :: encodeLit (scriptResult stmts)),
         (bcVersion :: 8 :: 0 :: encodeLit (scriptResult stmts)).length, ctx)) := by
  cases h : stmts.any isModuleStmt <;>
    simp [QJS_CompileToBytecode, JS_DetectModule, h, JS_Eval, JS_IsException,
      JS_VALUE_GET_TAG, JS_WriteObject, stripSourceInfo, encodeObjPayload,
      encodeBool, JS_FreeValue, JS_EVAL_TYPE_MODULE, JS_EVAL_TYPE_GLOBAL]

lemma evalBytecode_decode_module (ctx : Context) (buf : List Nat)
    (deps : List String) (hs : Bool)
    (h : decodeBuffer buf = some (JSValue.moduleV ⟨deps, hs⟩)) :
    QJS_EvalBytecode ctx buf =
      (if resolveOk deps then
        (JSValue.undefined,
          pushEvent (pushEvent ctx EngineEvent.resolveEv) EngineEvent.executeEv)
      else
        (JS_EXCEPTION,
          setPending (pushEvent ctx EngineEvent.resolveEv)
            ⟨ErrorKind.internalError, "could not resolve module"⟩)) := by
  cases hr : resolveOk deps <;>
    simp [QJS_EvalBytecode, JS_ReadObject, h, JS_IsException, JS_VALUE_GET_TAG,
      JS_ResolveModule, hr, JS_EvalFunction, JS_FreeValue, JS_EXCEPTION]

lemma evalBytecode_decode_func (ctx : Context) (buf : List Nat)
    (hs : Bool) (r : Lit)
    (h : decodeBuffer buf = some (JSValue.funcBytecodeV hs r)) :
    QJS_EvalBytecode ctx buf = (r.toJSValue, pushEvent ctx EngineEvent.executeEv) := by
  simp [QJS_EvalBytecode, JS_ReadObject, h, JS_IsException, JS_VALUE_GET_TAG,
    JS_EvalFunction, JS_FreeValue]

/-- C1: for every valid source program, executing the bytecode produced
by QJS_CompileToBytecode via QJS_EvalBytecode yields a result value
equal to the one QJS_EvalAutoDetect produces on the same source in an
independently created fresh Context. -/
theorem roundtrip_bytecode_matches_direct_eval (ctx : Context)
    (stmts : List Stmt) (fn : String) :
    ∃ b : List Nat,
      (QJS_CompileToBytecode ctx (SourceText.program stmts) fn).1 = some b ∧
      (QJS_EvalBytecode (QJS_CompileToBytecode ctx (SourceText.program stmts) fn).2.2 b).1
        = (QJS_EvalAutoDetect JS_NewContext (SourceText.program stmts) fn).1 := by
  cases h : stmts.any isModuleStmt
  case false =>
    refine ⟨bcVersion :: 8 :: 0 :: encodeLit (scriptResult stmts), ?_, ?_⟩
    · rw [compileToBytecode_program]
      simp [h]
    · rw [compileToBytecode_program]
      simp only [h, Bool.false_eq_true, if_false]
      have hb : decodeBuffer (bcVersion :: 8 :: 0 :: encodeLit (scriptResult stmts))
          = some (JSValue.funcBytecodeV false (scriptResult stmts)) := by
        simpa [encodeBool] using decodeBuffer_funcBuf false (scriptResult stmts)
      rw [evalBytecode_decode_func _ _ false (scriptResult stmts) hb]
      simp [QJS_EvalAutoDetect, JS_DetectModule, h, JS_Eval, JS_EVAL_TYPE_GLOBAL]
  case true =>
    refine ⟨bcVersion :: 7 :: 0 :: (importsOf stmts).length :: encodeStrs (importsOf stmts), ?_, ?_⟩
    · rw [compileToBytecode_program]
      simp [h]
    · rw [compileToBytecode_program]
      simp only [h, if_true]
      have hb : decodeBuffer
            (bcVersion :: 7 :: 0 :: (importsOf stmts).length :: encodeStrs (importsOf stmts))
          = some (JSValue.moduleV ⟨importsOf stmts, false⟩) := by
        simpa [encodeBool] using decodeBuffer_moduleBuf (importsOf stmts) false
      rw [evalBytecode_decode_module _ _ (importsOf stmts) false hb]
      cases hr : resolveOk (importsOf stmts) <;>
        simp [hr, QJS_EvalAutoDetect, JS_DetectModule, h, JS_Eval,
          JS_EVAL_TYPE_MODULE, JS_EXCEPTION]

/-- C2: on every buffer that fails deserialization (malformed contents
or an incompatible format/version header), QJS_EvalBytecode returns the
exception sentinel, records no execution event, and leaves a pending
exception; JS_EvalFunction is never reached. -/
theorem evalBytecode_rejects_bad_buffer (ctx : Context) (buf : List Nat)
    (h : decodeBuffer buf = none) :
    (QJS_EvalBytecode ctx buf).1 = JS_EXCEPTION ∧
    (QJS_EvalBytecode ctx buf).2.trace = ctx.trace ∧
    (QJS_EvalBytecode ctx buf).2.pendingException.isSome = true := by
  simp [QJS_EvalBytecode, JS_ReadObject, h, JS_IsException, JS_VALUE_GET_TAG,
    JS_EXCEPTION, setPending]

/-- Witness for C2 at the concrete buffer [66, 7, 0, 0], whose leading
version byte differs from the expected format/version tag. -/
theorem evalBytecode_rejects_bad_buffer_witness :
    (QJS_EvalBytecode JS_NewContext [66, 7, 0, 0]).1 = JS_EXCEPTION ∧
    (QJS_EvalBytecode JS_NewContext [66, 7, 0, 0]).2.trace = JS_NewContext.trace ∧
    (QJS_EvalBytecode JS_NewContext [66, 7, 0, 0]).2.pendingException.isSome = true :=
  evalBytecode_rejects_bad_buffer JS_NewContext [66, 7, 0, 0] (by decide)

/-- C3: compiling a syntactically invalid source with QJS_CompileModule
returns the null handle, never a usable module record, and sets a
retrievable pending exception on the Context. -/
theorem compileModule_invalid_source_fails (ctx : Context) (module_name : String) :
    (QJS_CompileModule ctx SourceText.malformed module_name).1 = none ∧
    (QJS_CompileModule ctx SourceText.malformed module_name).2.pendingException.isSome = true := by
  simp [QJS_CompileModule, JS_Eval, JS_IsException, JS_VALUE_GET_TAG, setPending,
    JS_EVAL_TYPE_MODULE]

/-- C4: QJS_ThrowTypeError and QJS_ThrowInternalError carry the supplied
message verbatim — for every message string, including ones containing
percent sequences, the stored error message equals the argument, the
error becomes the pending exception, and the sentinel is returned. -/
theorem throwError_message_verbatim (ctx : Context) (msg : String) :
    QJS_ThrowTypeError ctx msg
      = (JS_EXCEPTION, setPending ctx ⟨ErrorKind.typeError, msg⟩) ∧
    QJS_ThrowInternalError ctx msg
      = (JS_EXCEPTION, setPending ctx ⟨ErrorKind.internalError, msg⟩) := by
  have hs : String.mk (sprintfS "%s".data [msg]) = msg := by
    show String.mk (msg.data ++ sprintfS [] []) = msg
    simp [sprintfS]
  constructor <;>
    simp [QJS_ThrowTypeError, QJS_ThrowInternalError, JS_ThrowTypeError,
      JS_ThrowInternalError, hs, JS_EXCEPTION]

/-- C5: in QJS_EvalBytecode, a successfully deserialized module unit is
resolved before it is executed and is executed only when resolution
succeeds, while a script unit is executed without any resolution
event. -/
theorem evalBytecode_resolution_precedes_execution (ctx : Context) (buf : List Nat) :
    (∀ deps hs, decodeBuffer buf = some (JSValue.moduleV ⟨deps, hs⟩) →
        (QJS_EvalBytecode ctx buf).2.trace =
          ctx.trace ++ (if resolveOk deps then
            [EngineEvent.resolveEv, EngineEvent.executeEv]
          else [EngineEvent.resolveEv])) ∧
    (∀ hs r, decodeBuffer buf = some (JSValue.funcBytecodeV hs r) →
        (QJS_EvalBytecode ctx buf).2.trace = ctx.trace ++ [EngineEvent.executeEv]) := by
  constructor
  · intro deps hs h
    rw [evalBytecode_decode_module ctx buf deps hs h]
    cases hr : resolveOk deps <;> simp [hr, pushEvent, setPending]
  · intro hs r h
    rw [evalBytecode_decode_func ctx buf hs r h]
    simp [pushEvent]

/-- Witness for C5 at a concrete dependency-free module buffer and a
concrete script buffer. -/
theorem evalBytecode_resolution_precedes_execution_witness :
    (QJS_EvalBytecode JS_NewContext [67, 7, 0, 0]).2.trace
        = JS_NewContext.trace ++ [EngineEvent.resolveEv, EngineEvent.executeEv] ∧
    (QJS_EvalBytecode JS_NewContext [67, 8, 0, 0]).2.trace
        = JS_NewContext.trace ++ [EngineEvent.executeEv] := by
  constructor
  · have h := (evalBytecode_resolution_precedes_execution JS_NewContext [67, 7, 0, 0]).1
      [] false (by decide)
    simpa using h
  · exact (evalBytecode_resolution_precedes_execution JS_NewContext [67, 8, 0, 0]).2
      false Lit.undef (by decide)

/-- C6: on a source that fails to compile, QJS_CompileToBytecode returns
the null buffer, writes zero to the output length, and leaves the
pending exception set on the Context. -/
theorem compileToBytecode_failure_returns_null (ctx : Context) (fn : String) :
    (QJS_CompileToBytecode ctx SourceText.malformed fn).1 = none ∧
    (QJS_CompileToBytecode ctx SourceText.malformed fn).2.1 = 0 ∧
    (QJS_CompileToBytecode ctx SourceText.malformed fn).2.2.pendingException.isSome = true := by
  simp [QJS_CompileToBytecode, JS_DetectModule, JS_Eval, JS_IsException,
    JS_VALUE_GET_TAG, setPending, JS_EVAL_TYPE_GLOBAL]

/-- C7: JS_DetectModule holds exactly on source containing a top-level
statement importing or exporting, QJS_EvalAutoDetect selects its evaluation
mode by that rule, and the buffer QJS_CompileToBytecode produces is
tagged as a module unit exactly when the same rule selects module
mode. -/
theorem detectModule_selects_mode (ctx : Context) (fn : String)
    (src : SourceText) (stmts : List Stmt) :
    (JS_DetectModule src = true ↔ containsModuleDecl src) ∧
    QJS_EvalAutoDetect ctx src fn
      = JS_Eval ctx src fn
          (if JS_DetectModule src then JS_EVAL_TYPE_MODULE else JS_EVAL_TYPE_GLOBAL) false ∧
    (∃ b, (QJS_CompileToBytecode ctx (SourceText.program stmts) fn).1 = some b ∧
      Option.map JS_VALUE_GET_TAG (decodeBuffer b)
        = some (if JS_DetectModule (SourceText.program stmts) then JSTag.moduleT
                else JSTag.funcBytecodeT)) := by
  refine ⟨?_, rfl, ?_⟩
  · cases src with
    | malformed => simp [JS_DetectModule, containsModuleDecl]
    | program ss =>
      simp [JS_DetectModule, containsModuleDecl, List.any_eq_true, isModuleStmt_iff]
  · cases h : stmts.any isModuleStmt
    case false =>
      refine ⟨bcVersion :: 8 :: 0 :: encodeLit (scriptResult stmts), ?_, ?_⟩
      · rw [compileToBytecode_program]
        simp [h]
      · have hb : decodeBuffer (bcVersion :: 8 :: 0 :: encodeLit (scriptResult stmts))
            = some (JSValue.funcBytecodeV false (scriptResult stmts)) := by
          simpa [encodeBool] using decodeBuffer_funcBuf false (scriptResult stmts)
        simp [hb, JS_DetectModule, h, JS_VALUE_GET_TAG]
    case true =>
      refine ⟨bcVersion :: 7 :: 0 :: (importsOf stmts).length :: encodeStrs (importsOf stmts),
        ?_, ?_⟩
      · rw [compileToBytecode_program]
        simp [h]
      · have hb : decodeBuffer
              (bcVersion :: 7 :: 0 :: (importsOf stmts).length :: encodeStrs (importsOf stmts))
            = some (JSValue.moduleV ⟨importsOf stmts, false⟩) := by
          simpa [encodeBool] using decodeBuffer_moduleBuf (importsOf stmts) false
        simp [hb, JS_DetectModule, h, JS_VALUE_GET_TAG]

/-- C8: every constant constructor is pure and total — any two calls
agree — and each returned value equals the corresponding native
literal. -/
theorem constant_constructors_match_literals :
    (∀ u v : Unit,
      QJS_Undefined u = QJS_Undefined v ∧ QJS_Null u = QJS_Null v ∧
      QJS_True u = QJS_True v ∧ QJS_False u = QJS_False v ∧
      QJS_Exception u = QJS_Exception v) ∧
    QJS_Undefined () = JS_UNDEFINED ∧ QJS_Null () = JS_NULL ∧
    QJS_True () = JS_TRUE ∧ QJS_False () = JS_FALSE ∧
    QJS_Exception () = JS_EXCEPTION :=
  ⟨fun _ _ => ⟨rfl, rfl, rfl, rfl, rfl⟩, rfl, rfl, rfl, rfl, rfl⟩

/-- C9: QJS_NewBool returns the engine true value exactly when its int
argument is nonzero and the engine false value exactly when it is
zero. -/
theorem newBool_normalizes_truthiness (ctx : Context) (val : Int) :
    (QJS_NewBool ctx val = JS_TRUE ↔ val ≠ 0) ∧
    (QJS_NewBool ctx val = JS_FALSE ↔ val = 0) := by
  constructor <;> simp [QJS_NewBool, JS_NewBool, JS_TRUE, JS_FALSE]
